import Mathlib

/-!
Verification of the LogiMetrics route-optimization engine
(`ml-service/services/route_optimizer.py`, plus the second haversine
implementation in `ml-service/utils/feature_engineering.py`).

Shallow embedding notes:
* Python floats are modelled as `ℚ` wherever the code does ordinary
  arithmetic and comparisons (the nearest-neighbour fallback, the route /
  result bookkeeping); the trigonometric haversine functions are modelled
  over `ℝ` with Mathlib's real `sin`, `cos`, `arcsin`, `arctan`, `sqrt`.
* Python exceptions that can escape a function are modelled with
  `Except String`; a function that cannot raise is a plain total function.
* `int(x)` in Python truncates toward zero, `round(x, 2)` rounds half to
  even; both are modelled exactly on `ℚ` (`pyInt`, `round2`).
* The nearest-neighbour `while unvisited:` loop is modelled with a fuel
  parameter initialised to `unvisited.length`; every iteration removes one
  element from `unvisited`, so the fuel never runs out before the loop's
  own exit condition fires (this keeps the definition structurally
  recursive and hence evaluable by `decide`).
* CPython iterates a `set` of small ints `0..n-1` in ascending order,
  and removals never reorder the survivors, so the set `unvisited` is
  modelled as an ascending duplicate-free list of indices.
* The external OR-Tools solver is not part of the repository; the calls
  into it (`_ortools_optimize`'s model construction and `SolveWithParameters`)
  are modelled by an abstract per-vehicle node-sequence solution, while the
  pure result-extraction code around them (lines 381-440) is embedded
  directly.
-/

namespace LogiMetrics

/-- `Location` dataclass (route_optimizer.py lines 25-46). -/
structure Location where
  id : String
  latitude : ℚ
  longitude : ℚ
  name : String := ""
  demand : ℤ := 1
  time_window_start : Option ℤ := none
  time_window_end : Option ℤ := none
  service_time : ℤ := 10
deriving DecidableEq, Repr

instance : Inhabited Location := ⟨⟨"", 0, 0, "", 1, none, none, 10⟩⟩

/-- `Vehicle` dataclass (route_optimizer.py lines 49-69). -/
structure Vehicle where
  id : String
  capacity : ℤ := 100
  start_location_idx : ℕ := 0
  end_location_idx : Option ℕ := none
  cost_per_km : ℚ := 1
  max_distance_km : Option ℚ := none
  max_stops : Option ℕ := none
deriving DecidableEq, Repr

/-- One entry of a route's `stops` list: the dict literal appended at
route_optimizer.py lines 395-401 / 463-469 / 500-506. -/
structure Stop where
  location_id : String
  name : String
  latitude : ℚ
  longitude : ℚ
  sequence : ℕ
deriving DecidableEq, Repr

/-- One entry of the `routes` list (the dict literal at lines 420-426 / 524-530). -/
structure RouteRecord where
  vehicle_id : String
  stops : List Stop
  distance_km : ℚ
  time_minutes : ℚ
  cost : ℚ
deriving DecidableEq, Repr

/-- `OptimizationResult` dataclass (route_optimizer.py lines 72-83). -/
structure OptimizationResult where
  success : Bool
  routes : List RouteRecord := []
  total_distance_km : ℚ := 0
  total_time_minutes : ℚ := 0
  total_cost : ℚ := 0
  unassigned_locations : List String := []
  computation_time_ms : ℚ := 0
  solver_status : String := ""
  model_version : String := "1.0.0"
deriving DecidableEq, Repr

/-- Python `int(x)`: truncation toward zero (`Rat.floor` is the floor of a
rational, kept primitive so concrete runs evaluate). -/
def pyInt (x : ℚ) : ℤ :=
  if 0 ≤ x then x.floor else -(-x).floor

/-- Python `round` to the nearest integer, ties to even (banker's rounding,
exact on the rational value). -/
def pyRoundInt (x : ℚ) : ℤ :=
  let f : ℤ := x.floor
  let frac : ℚ := x - f
  if frac < 1/2 then f
  else if 1/2 < frac then f + 1
  else if f % 2 = 0 then f else f + 1

/-- Python `round(x, 2)`. -/
def round2 (x : ℚ) : ℚ := (pyRoundInt (x * 100) : ℚ) / 100

/-- Python `round(x, 1)`. -/
def round1 (x : ℚ) : ℚ := (pyRoundInt (x * 10) : ℚ) / 10

/-- `self.average_speed_kmh` default (route_optimizer.py line 128). -/
def average_speed_kmh : ℚ := 40

/-- The location record for index `i` (list accesses `locations[i]`; every
access in the embedded code paths is in range, the default is never hit). -/
def locAt (locs : List Location) (i : ℕ) : Location := locs.getD i default

/-- Build the stop dict for location index `i` with sequence number `seq`. -/
def mkStop (locs : List Location) (i : ℕ) (seq : ℕ) : Stop :=
  { location_id := (locAt locs i).id
    name := (locAt locs i).name
    latitude := (locAt locs i).latitude
    longitude := (locAt locs i).longitude
    sequence := seq }

/-- Build the stop dicts for the node indices `idxs`, numbering sequences
from `start` (each Python append sets `sequence` to the current length of
`route_stops`). -/
def mkStops (locs : List Location) (start : ℕ) : List ℕ → List Stop
  | [] => []
  | i :: rest => mkStop locs i start :: mkStops locs (start + 1) rest

/-! ### Fallback nearest-neighbour heuristic (`_fallback_optimize`, lines 442-547) -/

/-- One iteration of the `for loc_idx in unvisited:` scan (lines 480-490):
compute the distance to candidate `i`, and keep it as the new nearest when
its demand still fits and it is strictly nearer than the best so far.
`acc = none` models `nearest = None, nearest_dist = inf`. -/
def scanStep (dist : Location → Location → ℚ) (locs : List Location)
    (current : ℕ) (capacity_used capacity : ℤ)
    (acc : Option (ℕ × ℚ)) (i : ℕ) : Option (ℕ × ℚ) :=
  let d := dist (locAt locs current) (locAt locs i)
  if capacity_used + (locAt locs i).demand ≤ capacity then
    match acc with
    | none => some (i, d)
    | some (n, nd) => if d < nd then some (i, d) else some (n, nd)
  else acc

/-- The whole scan over the remaining candidates. -/
def scanNearest (dist : Location → Location → ℚ) (locs : List Location)
    (current : ℕ) (capacity_used capacity : ℤ) :
    List ℕ → Option (ℕ × ℚ) → Option (ℕ × ℚ)
  | [], acc => acc
  | i :: rest, acc =>
      scanNearest dist locs current capacity_used capacity rest
        (scanStep dist locs current capacity_used capacity acc i)

/-- The `while unvisited:` loop body (lines 475-506), with fuel.  Returns the
visited indices in visiting order, the accumulated `route_distance`, the
final `current` index and the remaining `unvisited` list. -/
def nnLoop (dist : Location → Location → ℚ) (locs : List Location)
    (capacity : ℤ) :
    ℕ → List ℕ → ℕ → ℤ → List ℕ × ℚ × ℕ × List ℕ
  | 0, unvisited, current, _ => ([], 0, current, unvisited)
  | fuel + 1, unvisited, current, capacity_used =>
      match scanNearest dist locs current capacity_used capacity unvisited none with
      | none => ([], 0, current, unvisited)
      | some (n, nd) =>
          let r := nnLoop dist locs capacity fuel (unvisited.erase n) n
            (capacity_used + (locAt locs n).demand)
          (n :: r.1, nd + r.2.1, r.2.2.1, r.2.2.2)

/-- One vehicle's turn in the fallback (lines 459-531 minus the final
bookkeeping): returns the visited delivery indices, the route distance
including the return leg, and the remaining unvisited list. -/
def vehicleRoute (dist : Location → Location → ℚ) (locs : List Location)
    (depot_index : ℕ) (v : Vehicle) (unvisited : List ℕ) :
    List ℕ × ℚ × List ℕ :=
  let r := nnLoop dist locs v.capacity unvisited.length unvisited depot_index 0
  let return_dist := dist (locAt locs r.2.2.1) (locAt locs depot_index)
  (r.1, r.2.1 + return_dist, r.2.2.2)

/-- The route dict appended at lines 524-530 for a vehicle whose visited
list is nonempty (`len(route_stops) > 2`). -/
def mkFallbackRoute (locs : List Location) (depot_index : ℕ) (v : Vehicle)
    (visited : List ℕ) (route_distance : ℚ) : RouteRecord :=
  { vehicle_id := v.id
    stops := mkStop locs depot_index 0 :: mkStops locs 1 visited
      ++ [mkStop locs depot_index (visited.length + 1)]
    distance_km := round2 route_distance
    time_minutes := (pyInt (route_distance / average_speed_kmh * 60) : ℚ)
    cost := round2 (route_distance * v.cost_per_km) }

/-- The `for vehicle in vehicles:` loop (lines 459-531): accumulates route
records and the unrounded `total_distance`, threading `unvisited` through. -/
def fallbackLoop (dist : Location → Location → ℚ) (locs : List Location)
    (depot_index : ℕ) :
    List Vehicle → List ℕ → List RouteRecord × ℚ × List ℕ
  | [], unvisited => ([], 0, unvisited)
  | v :: rest, unvisited =>
      if unvisited.isEmpty then ([], 0, unvisited)
      else
        let r := vehicleRoute dist locs depot_index v unvisited
        let t := fallbackLoop dist locs depot_index rest r.2.2
        if r.1.isEmpty then t
        else
          (mkFallbackRoute locs depot_index v r.1 r.2.1 :: t.1,
           r.2.1 + t.2.1, t.2.2)

/-- `_fallback_optimize` (lines 442-547), parameterised by the pairwise
distance function (the code uses `self._haversine_distance`; all route /
capacity / conservation reasoning is independent of the metric) and by the
measured wall-clock `computation_time_ms`.  Assumes `depot_index` is a
valid index (the caller-facing `optimize` embedding models the `KeyError`
raised by `unvisited.remove(depot_index)` otherwise). -/
def fallback_optimize (dist : Location → Location → ℚ) (locs : List Location)
    (vehicles : List Vehicle) (depot_index : ℕ) (computation_time : ℚ) :
    OptimizationResult :=
  let unvisited0 := (List.range locs.length).erase depot_index
  let r := fallbackLoop dist locs depot_index vehicles unvisited0
  { success := true
    routes := r.1
    total_distance_km := r.2.1
    total_time_minutes := (pyInt (r.2.1 / average_speed_kmh * 60) : ℚ)
    total_cost := (r.1.map RouteRecord.cost).sum
    unassigned_locations := r.2.2.map (fun i => (locAt locs i).id)
    computation_time_ms := computation_time
    solver_status := "HEURISTIC (nearest neighbor)"
    model_version := "1.0.0" }

/-! ### OR-Tools path (`_ortools_optimize`, lines 270-440)

The solver itself is the external `ortools` library.  A solver solution is
modelled as one node sequence per vehicle — exactly what the extraction
loop at lines 387-416 reads off via `routing.Start` / `solution.Value` /
`NextVar`: the walked nodes including the start depot and the final end
node.  The distance and time matrices are passed in as data (the code
computes them at lines 282-283; `compute_distance_matrix` below is that
computation). -/

/-- `_get_solver_status` (lines 549-559). -/
def get_solver_status (status : ℕ) : String :=
  if status = 0 then "ROUTING_NOT_SOLVED"
  else if status = 1 then "ROUTING_SUCCESS"
  else if status = 2 then "ROUTING_PARTIAL_SUCCESS_LOCAL_OPTIMUM_NOT_REACHED"
  else if status = 3 then "ROUTING_FAIL"
  else if status = 4 then "ROUTING_FAIL_TIMEOUT"
  else if status = 5 then "ROUTING_INVALID"
  else "UNKNOWN_" ++ toString status

/-- Matrix entry `m[i][j]` of a 2-D list. -/
def matEntry (m : List (List ℤ)) (i j : ℕ) : ℤ := (m.getD i []).getD j 0

/-- Sum of matrix entries over the consecutive pairs of a node walk: the
`route_distance += distance_matrix[prev][next]` accumulation of the
extraction loop (lines 403-406). -/
def walkSum (m : List (List ℤ)) : List ℕ → ℤ
  | [] => 0
  | [_] => 0
  | i :: j :: rest => matEntry m i j + walkSum m (j :: rest)

/-- The route dict appended at lines 420-426 for one vehicle, when its walk
has more than two stops. -/
def mkOrtoolsRoute (locs : List Location) (dmat tmat : List (List ℤ))
    (v : Vehicle) (seq : List ℕ) : RouteRecord :=
  let route_distance_km : ℚ := (walkSum dmat seq : ℚ) / 1000
  { vehicle_id := v.id
    stops := mkStops locs 0 seq
    distance_km := round2 route_distance_km
    time_minutes := (walkSum tmat seq : ℚ)
    cost := round2 (route_distance_km * v.cost_per_km) }

/-- The `for vehicle_idx in range(len(vehicles))` extraction loop
(lines 387-429): returns the kept routes and the unrounded totals
`(total_distance, total_time, total_cost)`. -/
def extractLoop (locs : List Location) (dmat tmat : List (List ℤ)) :
    List (Vehicle × List ℕ) → List RouteRecord × ℚ × ℚ × ℚ
  | [] => ([], 0, 0, 0)
  | (v, seq) :: rest =>
      let t := extractLoop locs dmat tmat rest
      if 2 < seq.length then
        let dkm : ℚ := (walkSum dmat seq : ℚ) / 1000
        (mkOrtoolsRoute locs dmat tmat v seq :: t.1,
         dkm + t.2.1, (walkSum tmat seq : ℚ) + t.2.2.1,
         dkm * v.cost_per_km + t.2.2.2)
      else t

/-- The success-path result construction of `_ortools_optimize`
(lines 381-440), given the per-vehicle walks `sol` extracted from a solver
solution and the solver's `routing.status()`. -/
def ortoolsExtract (locs : List Location) (vehicles : List Vehicle)
    (dmat tmat : List (List ℤ)) (sol : List (List ℕ)) (status : ℕ)
    (computation_time : ℚ) : OptimizationResult :=
  let r := extractLoop locs dmat tmat (vehicles.zip sol)
  { success := true
    routes := r.1
    total_distance_km := r.2.1
    total_time_minutes := r.2.2.1
    total_cost := r.2.2.2
    unassigned_locations := []
    computation_time_ms := computation_time
    solver_status := if status = 1 then "OPTIMAL" else "FEASIBLE"
    model_version := "1.0.0" }

/-- `_ortools_optimize` after the matrices are built and the solver has
run: `solution = None` gives the failure result of lines 374-379, otherwise
the solution is extracted. -/
def ortools_optimize (locs : List Location) (vehicles : List Vehicle)
    (dmat tmat : List (List ℤ)) (solution : Option (List (List ℕ)))
    (status : ℕ) (computation_time : ℚ) : OptimizationResult :=
  match solution with
  | none =>
      { success := false
        solver_status := get_solver_status status
        computation_time_ms := computation_time }
  | some sol => ortoolsExtract locs vehicles dmat tmat sol status computation_time

/-! ### The `optimize` entry point (lines 214-268)

Python exceptions escaping `optimize` are modelled with `Except String`.
The dict-normalisation branches (lines 236-237, 241-242) vanish in a typed
embedding except for their observable effect: `isinstance(vehicles[0], dict)`
evaluates `vehicles[0]`, which raises `IndexError` when `vehicles` is the
empty list.  In the fallback, `unvisited.remove(depot_index)` (line 454)
raises `KeyError` when `depot_index` is not a valid location index.  The
whole exact-solver call is abstracted as a function that may return a
result or raise; the `try/except` at lines 261-268 routes a raise into the
fallback. -/

/-- Lines 239-242: default vehicle, or the `vehicles[0]` access that raises
on an empty list. -/
def normalizeVehicles : Option (List Vehicle) → Except String (List Vehicle)
  | none => .ok [{ id := "vehicle_1", capacity := 1000 }]
  | some [] => .error "IndexError: list index out of range"
  | some vs => .ok vs

/-- The fallback call as made from `optimize`, including the `KeyError`
from `unvisited.remove(depot_index)` on an out-of-range depot index. -/
def fallbackCall (dist : Location → Location → ℚ) (locs : List Location)
    (vehicles : List Vehicle) (depot_index : ℕ) (computation_time : ℚ) :
    Except String OptimizationResult :=
  if depot_index < locs.length then
    .ok (fallback_optimize dist locs vehicles depot_index computation_time)
  else .error "KeyError"

/-- The body of `optimize` after vehicle normalisation (lines 244-268):
validation, then the exact-solver attempt with fall-through to the
heuristic. -/
def optimizeCore (avail : Bool)
    (exactSolve : List Location → List Vehicle → ℕ → Except String OptimizationResult)
    (dist : Location → Location → ℚ) (maxWaypoints : ℕ)
    (locations : List Location) (vs : List Vehicle)
    (depot_index : ℕ) (computation_time : ℚ) :
    Except String OptimizationResult :=
  if locations.length < 2 then
    .ok { success := false
          solver_status := "Need at least 2 locations (depot + 1 delivery)" }
  else if maxWaypoints < locations.length then
    .ok { success := false
          solver_status := "Too many waypoints. Max: " ++ toString maxWaypoints }
  else if avail = false then
    fallbackCall dist locations vs depot_index computation_time
  else
    match exactSolve locations vs depot_index with
    | .ok r => .ok r
    | .error _ => fallbackCall dist locations vs depot_index computation_time

/-- `RouteOptimizer.optimize` (lines 214-268). `avail` is the module-level
`ORTOOLS_AVAILABLE` flag; `exactSolve` abstracts the `_ortools_optimize`
call (which may raise, since it drives the external solver);
`maxWaypoints` is `self.max_waypoints` (default 25). -/
def optimize (avail : Bool)
    (exactSolve : List Location → List Vehicle → ℕ → Except String OptimizationResult)
    (dist : Location → Location → ℚ) (maxWaypoints : ℕ)
    (locations : List Location) (vehicles : Option (List Vehicle))
    (depot_index : ℕ) (computation_time : ℚ) :
    Except String OptimizationResult :=
  match normalizeVehicles vehicles with
  | .error e => .error e
  | .ok vs =>
      optimizeCore avail exactSolve dist maxWaypoints locations vs depot_index
        computation_time

/-! ### Great-circle geometry over ℝ

`_haversine_distance` (route_optimizer.py lines 135-158, numpy `arcsin`
form) and `haversine_distance` (feature_engineering.py lines 446-467,
`atan2` form).  Degrees-to-radians conversion is `x * π / 180`. -/

/-- `EARTH_RADIUS_KM` (route_optimizer.py line 112); feature_engineering
line 457 uses the same value as the integer literal `6371`. -/
def EARTH_RADIUS_KM : ℚ := 6371

/-- `np.radians` / `math.radians`. -/
noncomputable def radiansR (x : ℝ) : ℝ := x * (Real.pi / 180)

/-- The haversine intermediate
`a = sin(dlat/2)**2 + cos(lat1)*cos(lat2)*sin(dlon/2)**2`, shared verbatim
by both implementations (lines 155 and 464). -/
noncomputable def haversineA (lat1 lon1 lat2 lon2 : ℝ) : ℝ :=
  let p1 := radiansR lat1
  let l1 := radiansR lon1
  let p2 := radiansR lat2
  let l2 := radiansR lon2
  Real.sin ((p2 - p1) / 2) ^ 2 +
    Real.cos p1 * Real.cos p2 * Real.sin ((l2 - l1) / 2) ^ 2

/-- `RouteOptimizer._haversine_distance` (lines 135-158):
`c = 2 * arcsin(sqrt(a))`, result `EARTH_RADIUS_KM * c`. -/
noncomputable def haversine_distance_ro (lat1 lon1 lat2 lon2 : ℝ) : ℝ :=
  (EARTH_RADIUS_KM : ℝ) * (2 * Real.arcsin (Real.sqrt (haversineA lat1 lon1 lat2 lon2)))

/-- `math.atan2 y x`. -/
noncomputable def pyAtan2 (y x : ℝ) : ℝ :=
  if 0 < x then Real.arctan (y / x)
  else if x < 0 then
    (if 0 ≤ y then Real.arctan (y / x) + Real.pi else Real.arctan (y / x) - Real.pi)
  else
    (if 0 < y then Real.pi / 2 else if y < 0 then -(Real.pi / 2) else 0)

/-- `feature_engineering.haversine_distance` (lines 446-467):
`c = 2 * atan2(sqrt(a), sqrt(1-a))`, result `R * c` with `R = 6371`. -/
noncomputable def haversine_distance_fe (lat1 lon1 lat2 lon2 : ℝ) : ℝ :=
  let a := haversineA lat1 lon1 lat2 lon2
  (EARTH_RADIUS_KM : ℝ) * (2 * pyAtan2 (Real.sqrt a) (Real.sqrt (1 - a)))

/-- Python `int(x)` on a real value: truncation toward zero. -/
noncomputable def pyIntR (x : ℝ) : ℤ :=
  if 0 ≤ x then ⌊x⌋ else -⌊-x⌋

/-- `_compute_distance_matrix` (lines 160-183): the `i ≠ j` entries are
`int(dist * 1000)` of the haversine distance between locations `i` and `j`;
the matrix is initialised with zeros, so the diagonal stays 0. -/
noncomputable def compute_distance_matrix (locs : List Location) :
    List (List ℤ) :=
  (List.range locs.length).map (fun i =>
    (List.range locs.length).map (fun j =>
      if i ≠ j then
        pyIntR (haversine_distance_ro (locAt locs i).latitude (locAt locs i).longitude
          (locAt locs j).latitude (locAt locs j).longitude * 1000)
      else 0))

/-- `_compute_time_matrix` (lines 185-212): off-diagonal entry
`int(distance/speed_m_per_min + service_time(j))` with
`speed_m_per_min = average_speed_kmh * 1000 / 60`. -/
def compute_time_matrix (dmat : List (List ℤ)) (locs : List Location) :
    List (List ℤ) :=
  (List.range locs.length).map (fun i =>
    (List.range locs.length).map (fun j =>
      if i ≠ j then
        pyInt ((matEntry dmat i j : ℚ) / (average_speed_kmh * 1000 / 60)
          + ((locAt locs j).service_time : ℚ))
      else 0))

/-! ### Spec-side observables

These definitions phrase what the spec's sentences measure on a produced
`OptimizationResult`; they are the vocabulary of the claims, not
transcriptions of code. -/

/-- The location ids of a route's stop list. -/
def stopIds (r : RouteRecord) : List String := r.stops.map Stop.location_id

/-- How many of the result's routes mention `id` in their stop list. -/
def routesContaining (res : OptimizationResult) (id : String) : ℕ :=
  res.routes.countP (fun r => decide (id ∈ stopIds r))

/-- The spec's conservation property for one id: it appears in exactly one
route's stop list or in `unassigned_locations`, never both, never neither. -/
def ConservedId (res : OptimizationResult) (id : String) : Prop :=
  (routesContaining res id = 1 ∧ id ∉ res.unassigned_locations) ∨
  (routesContaining res id = 0 ∧ id ∈ res.unassigned_locations)

instance (res : OptimizationResult) (id : String) : Decidable (ConservedId res id) := by
  unfold ConservedId; infer_instance

/-- The demand of the location whose id is `id` (ids are unique per the
spec's data model, the caller's responsibility). -/
def locDemandById (locs : List Location) (id : String) : ℤ :=
  ((locs.find? (fun l => l.id == id)).getD default).demand

/-- A route's cumulative carried demand: the total demand of its delivery
stops (the stop list without the depot bookends). -/
def routeDeliveriesDemand (locs : List Location) (r : RouteRecord) : ℤ :=
  (((r.stops.drop 1).dropLast).map (fun s => locDemandById locs s.location_id)).sum

/-- The total demand of a list of location indices. -/
def demandSum (locs : List Location) (idxs : List ℕ) : ℤ :=
  (idxs.map (fun i => (locAt locs i).demand)).sum

/-- A well-formed per-vehicle walk as OR-Tools reports it: starts at the
depot, visits in-range non-depot nodes, and ends back at the depot (the
extraction loop appends the final node after `IsEnd`). -/
def ValidWalk (n depot : ℕ) (seq : List ℕ) : Prop :=
  ∃ mid, seq = depot :: mid ++ [depot] ∧ ∀ j ∈ mid, j < n ∧ j ≠ depot

/-- The `Capacity` dimension registered at lines 311-326: along each
vehicle's walk the cumulative demand (demand of every node the vehicle
departs from) stays within that vehicle's capacity; at the end of the walk
it equals the demand sum of all nodes but the final one.  Any solution the
solver returns satisfies the registered dimension, so this is the contract
assumed of `sol`. -/
def CapacityDimOk (locs : List Location) (vehicles : List Vehicle)
    (sol : List (List ℕ)) : Prop :=
  ∀ p ∈ vehicles.zip sol, demandSum locs p.2.dropLast ≤ p.1.capacity

instance (locs : List Location) (vehicles : List Vehicle)
    (sol : List (List ℕ)) : Decidable (CapacityDimOk locs vehicles sol) := by
  unfold CapacityDimOk; infer_instance

/-- The routing model has no disjunctions (no penalty/drop option is ever
added at lines 286-357), so any returned solution visits every non-depot
node on exactly one vehicle's walk. -/
def SolVisitsAllOnce (n depot : ℕ) (sol : List (List ℕ)) : Prop :=
  ∀ i, i < n → i ≠ depot → sol.countP (fun seq => decide (i ∈ seq)) = 1

instance (n depot : ℕ) (sol : List (List ℕ)) :
    Decidable (SolVisitsAllOnce n depot sol) := by
  unfold SolVisitsAllOnce; infer_instance

/-! ### Concrete data used by witnesses and counterexamples -/

/-- Absolute value on ℚ, kept primitive so concrete runs evaluate. -/
def rabs (x : ℚ) : ℚ := if x < 0 then -x else x

/-- A concrete computable metric standing in for the (real-valued,
noncomputable) haversine distance in concrete evaluations; the fallback
algorithm's claims are proved for every metric, and this stand-in is used
only where the asserted facts (route membership, raised exceptions, empty
routes) do not depend on the metric's numeric values — the concrete inputs
are arranged so that candidate selection is forced by the integer capacity
guard alone.  Facts about numeric result fields are established against
the real haversine metric instead (see `compute_distance_matrix` at
equator coordinates below). -/
def taxicab (a b : Location) : ℚ :=
  rabs (a.latitude - b.latitude) + rabs (a.longitude - b.longitude)

/-- A delivery point on the equator, 1/250 of a degree of longitude from
`exDepot` (also on the equator): on the equator the haversine collapses to
an exact closed form, `6371 * λ` km for longitude difference `λ` in
radians, which makes the integer-meter matrix entry the code computes for
this pair provably `444` (since `⌊6371π/45⌋ = 444`). -/
def eqLocA : Location := { id := "ea", latitude := 0, longitude := 1/250, demand := 1 }

def exDepot : Location := { id := "d", latitude := 0, longitude := 0, demand := 0 }

def exLocA : Location := { id := "a", latitude := 1/4, longitude := 0, demand := 1 }

def exLocB : Location := { id := "b", latitude := 13/50, longitude := 0, demand := 2 }

def exLocBig : Location := { id := "big", latitude := 1, longitude := 0, demand := 50 }

def exVan1 : Vehicle := { id := "v1", capacity := 1 }

def exVan2 : Vehicle := { id := "v2", capacity := 2 }

/-- An exact solver stub that always raises. -/
def exRaise : List Location → List Vehicle → ℕ → Except String OptimizationResult :=
  fun _ _ _ => .error "solver exception"

def exDmat : List (List ℤ) := [[0, 100], [100, 0]]

def exTmat : List (List ℤ) := [[0, 12], [12, 0]]

/-- A concrete one-vehicle solver walk depot → 1 → depot. -/
def exSol : List (List ℕ) := [[0, 1, 0]]

/-! ### Elementary facts about `optimize` control flow -/

lemma normalizeVehicles_ok (vehicles : Option (List Vehicle))
    (hv : vehicles ≠ some []) : ∃ vs, normalizeVehicles vehicles = .ok vs := by
  cases vehicles with
  | none => exact ⟨_, rfl⟩
  | some l =>
      cases l with
      | nil => exact absurd rfl hv
      | cons a as => exact ⟨_, rfl⟩

lemma optimize_eq_core (avail : Bool)
    (exactSolve : List Location → List Vehicle → ℕ → Except String OptimizationResult)
    (dist : Location → Location → ℚ) (maxWaypoints : ℕ)
    (locations : List Location) (vehicles : Option (List Vehicle))
    (vs : List Vehicle) (depot_index : ℕ) (t : ℚ)
    (hvs : normalizeVehicles vehicles = .ok vs) :
    optimize avail exactSolve dist maxWaypoints locations vehicles depot_index t =
      optimizeCore avail exactSolve dist maxWaypoints locations vs depot_index t := by
  unfold optimize
  rw [hvs]

/-- **C3** (corrected).  If the vehicles argument is omitted or nonempty,
then any input with fewer than 2 locations or more than the configured
maximum returns `success = false` with one of the two descriptive
validation statuses, and no exception escapes. -/
theorem optimize_validation_failure (avail : Bool)
    (exactSolve : List Location → List Vehicle → ℕ → Except String OptimizationResult)
    (dist : Location → Location → ℚ) (maxWaypoints : ℕ)
    (locations : List Location) (vehicles : Option (List Vehicle))
    (depot_index : ℕ) (t : ℚ)
    (hv : vehicles ≠ some [])
    (hsize : locations.length < 2 ∨ maxWaypoints < locations.length) :
    ∃ r, optimize avail exactSolve dist maxWaypoints locations vehicles depot_index t
        = .ok r ∧
      r.success = false ∧
      (r.solver_status = "Need at least 2 locations (depot + 1 delivery)" ∨
       r.solver_status = "Too many waypoints. Max: " ++ toString maxWaypoints) := by
  obtain ⟨vs, hvs⟩ := normalizeVehicles_ok vehicles hv
  rw [optimize_eq_core avail exactSolve dist maxWaypoints locations vehicles vs
    depot_index t hvs]
  unfold optimizeCore
  by_cases h2 : locations.length < 2
  · rw [if_pos h2]
    exact ⟨_, rfl, rfl, Or.inl rfl⟩
  · have h3 : maxWaypoints < locations.length := hsize.resolve_left h2
    rw [if_neg h2, if_pos h3]
    exact ⟨_, rfl, rfl, Or.inr rfl⟩

/-- **C3** (counterexample to the claim as stated): with fewer than 2
locations but an empty `vehicles` list, `optimize` raises `IndexError`
(the `isinstance(vehicles[0], dict)` check at line 241 runs before
validation), instead of returning a `success = false` result. -/
theorem optimize_raises_on_empty_vehicle_list :
    optimize false exRaise taxicab 25 [] (some []) 0 0 =
      .error "IndexError: list index out of range" ∧
    ([] : List Location).length < 2 :=
  ⟨rfl, by decide⟩

/-- **C3** witness. -/
theorem optimize_validation_failure_witness :
    ∃ r, optimize false exRaise taxicab 25 [exDepot] none 0 0 = .ok r ∧
      r.success = false ∧
      (r.solver_status = "Need at least 2 locations (depot + 1 delivery)" ∨
       r.solver_status = "Too many waypoints. Max: " ++ toString 25) :=
  optimize_validation_failure false exRaise taxicab 25 [exDepot] none 0 0
    (by decide) (Or.inl (by decide))

/-- **C4** (corrected).  With a well-formed vehicles argument (omitted or
nonempty) and an in-range depot index, every path through `optimize`
terminates in an `OptimizationResult` rather than raising, whatever the
exact solver does. -/
theorem optimize_never_raises (avail : Bool)
    (exactSolve : List Location → List Vehicle → ℕ → Except String OptimizationResult)
    (dist : Location → Location → ℚ) (maxWaypoints : ℕ)
    (locations : List Location) (vehicles : Option (List Vehicle))
    (depot_index : ℕ) (t : ℚ)
    (hv : vehicles ≠ some [])
    (hd : depot_index < locations.length) :
    ∃ r, optimize avail exactSolve dist maxWaypoints locations vehicles depot_index t
        = .ok r := by
  obtain ⟨vs, hvs⟩ := normalizeVehicles_ok vehicles hv
  rw [optimize_eq_core avail exactSolve dist maxWaypoints locations vehicles vs
    depot_index t hvs]
  unfold optimizeCore
  by_cases h2 : locations.length < 2
  · rw [if_pos h2]; exact ⟨_, rfl⟩
  · rw [if_neg h2]
    by_cases h3 : maxWaypoints < locations.length
    · rw [if_pos h3]; exact ⟨_, rfl⟩
    · rw [if_neg h3]
      by_cases ha : avail = false
      · rw [if_pos ha]
        unfold fallbackCall
        rw [if_pos hd]
        exact ⟨_, rfl⟩
      · rw [if_neg ha]
        cases hsolve : exactSolve locations vs depot_index with
        | ok r => exact ⟨r, rfl⟩
        | error e =>
            unfold fallbackCall
            rw [if_pos hd]
            exact ⟨_, rfl⟩

/-- **C4** (counterexample to the claim as stated): a valid two-location
input with an out-of-range `depot_index` makes the fallback's
`unvisited.remove(depot_index)` (line 454) raise `KeyError`, which escapes
`optimize`. -/
theorem optimize_raises_on_bad_depot_index :
    optimize false exRaise taxicab 25 [exDepot, exLocA] (some [exVan1]) 5 0 =
      .error "KeyError" := rfl

/-- **C4** witness. -/
theorem optimize_never_raises_witness :
    ∃ r, optimize false exRaise taxicab 25 [exDepot, exLocA] (some [exVan1]) 0 0
      = .ok r :=
  optimize_never_raises false exRaise taxicab 25 [exDepot, exLocA] (some [exVan1])
    0 0 (by decide) (by decide)

/-- **C5** (amended theorem).  Whenever the exact solver is unavailable or
raises internally (and the input passes validation, with an in-range depot
index and a well-formed vehicles argument), the caller receives exactly the
fallback heuristic's result, and that result reports `success = true` —
unconditionally, even when the fallback places no route at all. -/
theorem optimize_falls_back_success (avail : Bool)
    (exactSolve : List Location → List Vehicle → ℕ → Except String OptimizationResult)
    (dist : Location → Location → ℚ) (maxWaypoints : ℕ)
    (locations : List Location) (vehicles : Option (List Vehicle))
    (vs : List Vehicle) (depot_index : ℕ) (t : ℚ)
    (hvs : normalizeVehicles vehicles = .ok vs)
    (h2 : ¬ locations.length < 2) (h3 : ¬ maxWaypoints < locations.length)
    (hd : depot_index < locations.length)
    (hfail : avail = false ∨ ∃ e, exactSolve locations vs depot_index = .error e) :
    optimize avail exactSolve dist maxWaypoints locations vehicles depot_index t
        = .ok (fallback_optimize dist locations vs depot_index t) ∧
      (fallback_optimize dist locations vs depot_index t).success = true := by
  refine ⟨?_, rfl⟩
  rw [optimize_eq_core avail exactSolve dist maxWaypoints locations vehicles vs
    depot_index t hvs]
  unfold optimizeCore
  rw [if_neg h2, if_neg h3]
  by_cases ha : avail = false
  · rw [if_pos ha]
    unfold fallbackCall
    rw [if_pos hd]
  · rw [if_neg ha]
    rcases hfail with ha' | ⟨e, he⟩
    · exact absurd ha' ha
    · rw [he]
      unfold fallbackCall
      rw [if_pos hd]

/-- **C5** (counterexample to the claim as stated): a fallback result with
an empty routes list still reports `success = true` — the "unless the
fallback itself also cannot place any route" proviso does not hold
(lines 537-547 return `success=True` unconditionally). -/
theorem fallback_empty_routes_reports_success :
    optimize false exRaise taxicab 25 [exDepot, exLocBig] (some [exVan1]) 0 0 =
      .ok (fallback_optimize taxicab [exDepot, exLocBig] [exVan1] 0 0) ∧
    (fallback_optimize taxicab [exDepot, exLocBig] [exVan1] 0 0).routes = [] ∧
    (fallback_optimize taxicab [exDepot, exLocBig] [exVan1] 0 0).success = true := by
  refine ⟨rfl, by decide, rfl⟩

/-- **C5** witness. -/
theorem optimize_falls_back_success_witness :
    optimize true exRaise taxicab 25 [exDepot, exLocA] (some [exVan1]) 0 0
        = .ok (fallback_optimize taxicab [exDepot, exLocA] [exVan1] 0 0) ∧
      (fallback_optimize taxicab [exDepot, exLocA] [exVan1] 0 0).success = true :=
  optimize_falls_back_success true exRaise taxicab 25 [exDepot, exLocA]
    (some [exVan1]) [exVan1] 0 0 rfl (by decide) (by decide) (by decide)
    (Or.inr ⟨"solver exception", rfl⟩)

/-- **C9** (confirmed).  The fallback heuristic is deterministic: two solves
of the same locations/vehicles input (performed at different wall-clock
times, the only run-dependent input) produce identical route assignments
and identical total distance. -/
theorem fallback_deterministic (dist : Location → Location → ℚ)
    (locs : List Location) (vehicles : List Vehicle) (depot_index : ℕ)
    (t₁ t₂ : ℚ) :
    (fallback_optimize dist locs vehicles depot_index t₁).routes =
      (fallback_optimize dist locs vehicles depot_index t₂).routes ∧
    (fallback_optimize dist locs vehicles depot_index t₁).total_distance_km =
      (fallback_optimize dist locs vehicles depot_index t₂).total_distance_km :=
  ⟨rfl, rfl⟩

/-- **C10** (confirmed).  Whenever the exact-solver path returns a result
with `success = true`, its `unassigned_locations` is empty (the success
branch at lines 431-440 never fills that field). -/
theorem ortools_success_no_unassigned (locs : List Location)
    (vehicles : List Vehicle) (dmat tmat : List (List ℤ))
    (solution : Option (List (List ℕ))) (status : ℕ) (t : ℚ)
    (h : (ortools_optimize locs vehicles dmat tmat solution status t).success = true) :
    (ortools_optimize locs vehicles dmat tmat solution status t).unassigned_locations
      = [] := by
  cases solution with
  | none => exact absurd h (by simp [ortools_optimize])
  | some sol => rfl

/-- **C10** witness. -/
theorem ortools_success_no_unassigned_witness :
    (ortools_optimize [exDepot, exLocA] [exVan1] exDmat exTmat (some exSol) 1 0).unassigned_locations
      = [] :=
  ortools_success_no_unassigned [exDepot, exLocA] [exVan1] exDmat exTmat
    (some exSol) 1 0 (by decide)

/-! ### Geometry lemmas -/

lemma haversineA_symm (lat1 lon1 lat2 lon2 : ℝ) :
    haversineA lat2 lon2 lat1 lon1 = haversineA lat1 lon1 lat2 lon2 := by
  simp only [haversineA]
  rw [show (radiansR lat1 - radiansR lat2) / 2
      = -((radiansR lat2 - radiansR lat1) / 2) by ring,
    show (radiansR lon1 - radiansR lon2) / 2
      = -((radiansR lon2 - radiansR lon1) / 2) by ring,
    Real.sin_neg, Real.sin_neg]
  ring

lemma haversineA_self (lat lon : ℝ) : haversineA lat lon lat lon = 0 := by
  simp [haversineA]

lemma haversine_ro_symm (lat1 lon1 lat2 lon2 : ℝ) :
    haversine_distance_ro lat2 lon2 lat1 lon1 =
      haversine_distance_ro lat1 lon1 lat2 lon2 := by
  unfold haversine_distance_ro
  rw [haversineA_symm]

lemma haversine_ro_self (lat lon : ℝ) :
    haversine_distance_ro lat lon lat lon = 0 := by
  simp [haversine_distance_ro, haversineA_self]

lemma haversine_fe_symm (lat1 lon1 lat2 lon2 : ℝ) :
    haversine_distance_fe lat2 lon2 lat1 lon1 =
      haversine_distance_fe lat1 lon1 lat2 lon2 := by
  simp only [haversine_distance_fe]
  rw [haversineA_symm]

lemma haversine_fe_self (lat lon : ℝ) :
    haversine_distance_fe lat lon lat lon = 0 := by
  simp [haversine_distance_fe, haversineA_self, pyAtan2]

/-- **C8** (confirmed).  Both haversine implementations (the numpy
`arcsin` form in `route_optimizer.py` and the `atan2` form in
`feature_engineering.py`, both with Earth radius 6371.0 km) are exactly
symmetric in their two points — hence symmetric to floating-point
tolerance — and return 0 for identical points. -/
theorem haversine_symmetric_and_zero (lat1 lon1 lat2 lon2 : ℝ) :
    haversine_distance_ro lat1 lon1 lat2 lon2 =
      haversine_distance_ro lat2 lon2 lat1 lon1 ∧
    haversine_distance_fe lat1 lon1 lat2 lon2 =
      haversine_distance_fe lat2 lon2 lat1 lon1 ∧
    haversine_distance_ro lat1 lon1 lat1 lon1 = 0 ∧
    haversine_distance_fe lat1 lon1 lat1 lon1 = 0 :=
  ⟨(haversine_ro_symm lat1 lon1 lat2 lon2).symm,
   (haversine_fe_symm lat1 lon1 lat2 lon2).symm,
   haversine_ro_self lat1 lon1, haversine_fe_self lat1 lon1⟩

lemma matEntry_range_map (g : ℕ → ℕ → ℤ) (n i j : ℕ)
    (hi : i < n) (hj : j < n) :
    matEntry ((List.range n).map (fun i => (List.range n).map (g i))) i j
      = g i j := by
  simp [matEntry, List.getD, List.getElem?_map, List.getElem?_range, hi, hj]

/-- **C7** (confirmed).  For N locations the distance matrix is N×N, its
diagonal entries are 0, each off-diagonal entry `[i][j]` is the haversine
distance between locations i and j converted (truncated) to integer
meters, and the matrix is symmetric. -/
theorem distance_matrix_shape_entries_symmetric (locs : List Location)
    (i j : ℕ) (hi : i < locs.length) (hj : j < locs.length) :
    (compute_distance_matrix locs).length = locs.length ∧
    (∀ row ∈ compute_distance_matrix locs, row.length = locs.length) ∧
    matEntry (compute_distance_matrix locs) i i = 0 ∧
    (i ≠ j → matEntry (compute_distance_matrix locs) i j =
      pyIntR (haversine_distance_ro (locAt locs i).latitude
        (locAt locs i).longitude (locAt locs j).latitude
        (locAt locs j).longitude * 1000)) ∧
    matEntry (compute_distance_matrix locs) i j =
      matEntry (compute_distance_matrix locs) j i := by
  refine ⟨by simp [compute_distance_matrix], ?_, ?_, ?_, ?_⟩
  · intro row hrow
    simp only [compute_distance_matrix, List.mem_map] at hrow
    obtain ⟨a, _, ha⟩ := hrow
    simp [← ha]
  · rw [compute_distance_matrix, matEntry_range_map _ _ i i hi hi]
    simp
  · intro hij
    rw [compute_distance_matrix, matEntry_range_map _ _ i j hi hj]
    simp [hij]
  · rw [compute_distance_matrix, matEntry_range_map _ _ i j hi hj,
      matEntry_range_map _ _ j i hj hi]
    by_cases hij : i = j
    · simp [hij]
    · simp only [ne_eq, hij, Ne.symm hij, not_false_eq_true, if_true, ite_true]
      rw [haversine_ro_symm]

/-- **C7** witness. -/
theorem distance_matrix_shape_entries_symmetric_witness :
    (compute_distance_matrix [exDepot, exLocA]).length
        = (List.length [exDepot, exLocA]) ∧
    (∀ row ∈ compute_distance_matrix [exDepot, exLocA],
        row.length = (List.length [exDepot, exLocA])) ∧
    matEntry (compute_distance_matrix [exDepot, exLocA]) 0 0 = 0 ∧
    ((0 : ℕ) ≠ 1 → matEntry (compute_distance_matrix [exDepot, exLocA]) 0 1 =
      pyIntR (haversine_distance_ro (locAt [exDepot, exLocA] 0).latitude
        (locAt [exDepot, exLocA] 0).longitude
        (locAt [exDepot, exLocA] 1).latitude
        (locAt [exDepot, exLocA] 1).longitude * 1000)) ∧
    matEntry (compute_distance_matrix [exDepot, exLocA]) 0 1 =
      matEntry (compute_distance_matrix [exDepot, exLocA]) 1 0 :=
  distance_matrix_shape_entries_symmetric [exDepot, exLocA] 0 1
    (by decide) (by decide)

/-! ### Fallback heuristic invariants -/

lemma demandSum_nil (locs : List Location) : demandSum locs [] = 0 := rfl

lemma demandSum_cons (locs : List Location) (a : ℕ) (l : List ℕ) :
    demandSum locs (a :: l) = (locAt locs a).demand + demandSum locs l := by
  simp [demandSum]

lemma scanStep_spec {dist : Location → Location → ℚ} {locs : List Location}
    {current : ℕ} {cu cap : ℤ} {acc : Option (ℕ × ℚ)} {i n : ℕ} {nd : ℚ}
    (h : scanStep dist locs current cu cap acc i = some (n, nd)) :
    (n = i ∧ cu + (locAt locs n).demand ≤ cap) ∨ (∃ d₀, acc = some (n, d₀)) := by
  unfold scanStep at h
  split_ifs at h with hcap
  · cases acc with
    | none =>
        simp only [Option.some.injEq, Prod.mk.injEq] at h
        exact Or.inl ⟨h.1.symm, by rw [← h.1]; exact hcap⟩
    | some p =>
        obtain ⟨m, md⟩ := p
        simp only [] at h
        split_ifs at h with hlt
        · simp only [Option.some.injEq, Prod.mk.injEq] at h
          exact Or.inl ⟨h.1.symm, by rw [← h.1]; exact hcap⟩
        · simp only [Option.some.injEq, Prod.mk.injEq] at h
          exact Or.inr ⟨md, by rw [h.1]⟩
  · exact Or.inr ⟨nd, h⟩

lemma scanNearest_spec {dist : Location → Location → ℚ} {locs : List Location}
    {current : ℕ} {cu cap : ℤ} :
    ∀ (l : List ℕ) (acc : Option (ℕ × ℚ)) (n : ℕ) (nd : ℚ),
      scanNearest dist locs current cu cap l acc = some (n, nd) →
      (n ∈ l ∧ cu + (locAt locs n).demand ≤ cap) ∨ (∃ d₀, acc = some (n, d₀)) := by
  intro l
  induction l with
  | nil => intro acc n nd h; exact Or.inr ⟨nd, h⟩
  | cons i rest ih =>
      intro acc n nd h
      rw [scanNearest] at h
      rcases ih _ n nd h with hL | ⟨d₀, hacc⟩
      · exact Or.inl ⟨List.mem_cons_of_mem _ hL.1, hL.2⟩
      · rcases scanStep_spec hacc with hL | hR
        · exact Or.inl ⟨hL.1 ▸ List.mem_cons_self i rest, hL.2⟩
        · exact Or.inr hR

lemma scanNearest_none_spec {dist : Location → Location → ℚ}
    {locs : List Location} {current : ℕ} {cu cap : ℤ} {l : List ℕ}
    {n : ℕ} {nd : ℚ}
    (h : scanNearest dist locs current cu cap l none = some (n, nd)) :
    n ∈ l ∧ cu + (locAt locs n).demand ≤ cap := by
  rcases scanNearest_spec l none n nd h with h' | ⟨d₀, h0⟩
  · exact h'
  · cases h0

lemma nnLoop_capacity (dist : Location → Location → ℚ) (locs : List Location)
    (cap : ℤ) :
    ∀ (fuel : ℕ) (unvisited : List ℕ) (current : ℕ) (cu : ℤ),
      (nnLoop dist locs cap fuel unvisited current cu).1 = [] ∨
      cu + demandSum locs (nnLoop dist locs cap fuel unvisited current cu).1 ≤ cap := by
  intro fuel
  induction fuel with
  | zero => intro unvisited current cu; exact Or.inl rfl
  | succ fuel ih =>
      intro unvisited current cu
      cases hscan : scanNearest dist locs current cu cap unvisited none with
      | none => left; simp only [nnLoop, hscan]
      | some p =>
          obtain ⟨n, nd⟩ := p
          have hfeas := (scanNearest_none_spec hscan).2
          simp only [nnLoop, hscan]
          rcases ih (unvisited.erase n) n (cu + (locAt locs n).demand) with h0 | h1
          · right
            rw [h0, demandSum_cons, demandSum_nil, add_zero]
            exact hfeas
          · right
            rw [demandSum_cons, ← add_assoc]
            exact h1

lemma nnLoop_perm (dist : Location → Location → ℚ) (locs : List Location)
    (cap : ℤ) :
    ∀ (fuel : ℕ) (unvisited : List ℕ) (current : ℕ) (cu : ℤ),
      unvisited.Perm ((nnLoop dist locs cap fuel unvisited current cu).1 ++
        (nnLoop dist locs cap fuel unvisited current cu).2.2.2) := by
  intro fuel
  induction fuel with
  | zero => intro unvisited current cu; exact List.Perm.refl _
  | succ fuel ih =>
      intro unvisited current cu
      cases hscan : scanNearest dist locs current cu cap unvisited none with
      | none => simp only [nnLoop, hscan]; exact List.Perm.refl _
      | some p =>
          obtain ⟨n, nd⟩ := p
          have hmem := (scanNearest_none_spec hscan).1
          simp only [nnLoop, hscan, List.cons_append]
          exact (List.perm_cons_erase hmem).trans
            ((ih (unvisited.erase n) n (cu + (locAt locs n).demand)).cons n)

lemma vehicleRoute_perm (dist : Location → Location → ℚ)
    (locs : List Location) (depot_index : ℕ) (v : Vehicle)
    (unvisited : List ℕ) :
    unvisited.Perm ((vehicleRoute dist locs depot_index v unvisited).1 ++
      (vehicleRoute dist locs depot_index v unvisited).2.2) := by
  simp only [vehicleRoute]
  exact nnLoop_perm dist locs v.capacity unvisited.length unvisited depot_index 0

lemma vehicleRoute_capacity (dist : Location → Location → ℚ)
    (locs : List Location) (depot_index : ℕ) (v : Vehicle)
    (unvisited : List ℕ) :
    (vehicleRoute dist locs depot_index v unvisited).1 = [] ∨
    demandSum locs (vehicleRoute dist locs depot_index v unvisited).1
      ≤ v.capacity := by
  simp only [vehicleRoute]
  rcases nnLoop_capacity dist locs v.capacity unvisited.length unvisited
    depot_index 0 with h | h
  · exact Or.inl h
  · exact Or.inr (by linarith)

/-! ### Unique-id lookup lemmas -/

lemma locAt_eq_get (locs : List Location) (j : ℕ) (hj : j < locs.length) :
    locAt locs j = locs.get ⟨j, hj⟩ := by
  simp [locAt, List.getD, List.getElem?_eq_getElem hj]

lemma locAt_mem (locs : List Location) (j : ℕ) (hj : j < locs.length) :
    locAt locs j ∈ locs := by
  rw [locAt_eq_get locs j hj]
  exact locs.get_mem j hj

lemma locAt_id_inj (locs : List Location)
    (h : (locs.map Location.id).Nodup) {i j : ℕ}
    (hi : i < locs.length) (hj : j < locs.length)
    (hid : (locAt locs i).id = (locAt locs j).id) : i = j := by
  have hi' : i < (locs.map Location.id).length := by simpa using hi
  have hj' : j < (locs.map Location.id).length := by simpa using hj
  have hg : (locs.map Location.id).get ⟨i, hi'⟩
      = (locs.map Location.id).get ⟨j, hj'⟩ := by
    rw [locAt_eq_get locs i hi, locAt_eq_get locs j hj] at hid
    simpa [List.get_eq_getElem, List.getElem_map] using hid
  have := (List.Nodup.get_inj_iff h).mp hg
  exact Fin.mk.inj_iff.mp this

lemma find_id_self (locs : List Location)
    (h : (locs.map Location.id).Nodup) :
    ∀ (j : ℕ), j < locs.length →
      locs.find? (fun l => l.id == (locAt locs j).id) = some (locAt locs j) := by
  induction locs with
  | nil => intro j hj; simp at hj
  | cons x xs ih =>
      intro j hj
      have hx : (x.id :: xs.map Location.id).Nodup := by simpa using h
      cases j with
      | zero =>
          have h0 : locAt (x :: xs) 0 = x := rfl
          rw [h0]
          exact List.find?_cons_of_pos _ (by simp)
      | succ j =>
          have hxs : locAt (x :: xs) (j + 1) = locAt xs j := rfl
          have hj' : j < xs.length := by simpa using hj
          have hmem : (locAt xs j).id ∈ xs.map Location.id := by
            rw [locAt_eq_get xs j hj']
            exact List.mem_map_of_mem _ (xs.get_mem j hj')
          have hnot : x.id ∉ xs.map Location.id := (List.nodup_cons.mp hx).1
          have hne : (x.id == (locAt xs j).id) = false := by
            simp only [beq_eq_false_iff_ne, ne_eq]
            intro heq
            exact hnot (heq ▸ hmem)
          rw [hxs, List.find?_cons_of_neg _ (by simp [hne])]
          exact ih (List.nodup_cons.mp hx).2 j hj'

lemma locDemandById_locAt (locs : List Location)
    (h : (locs.map Location.id).Nodup) (j : ℕ) (hj : j < locs.length) :
    locDemandById locs (locAt locs j).id = (locAt locs j).demand := by
  unfold locDemandById
  rw [find_id_self locs h j hj]
  rfl

/-! ### Stop-list lemmas -/

lemma mkStops_map_location_id (locs : List Location) :
    ∀ (s : ℕ) (l : List ℕ),
      (mkStops locs s l).map Stop.location_id
        = l.map (fun j => (locAt locs j).id) := by
  intro s l
  induction l generalizing s with
  | nil => rfl
  | cons a t ih => simp [mkStops, mkStop, ih]

lemma mkStops_map_demand (locs : List Location)
    (h : (locs.map Location.id).Nodup) :
    ∀ (s : ℕ) (l : List ℕ), (∀ j ∈ l, j < locs.length) →
      (mkStops locs s l).map (fun st => locDemandById locs st.location_id)
        = l.map (fun j => (locAt locs j).demand) := by
  intro s l
  induction l generalizing s with
  | nil => intro _; rfl
  | cons a t ih =>
      intro hval
      have ha := hval a (List.mem_cons_self a t)
      simp only [mkStops, List.map_cons, mkStop]
      rw [locDemandById_locAt locs h a ha]
      rw [ih (s + 1) (fun j hj => hval j (List.mem_cons_of_mem a hj))]

lemma mkStops_concat (locs : List Location) :
    ∀ (s : ℕ) (l : List ℕ) (a : ℕ),
      mkStops locs s (l ++ [a]) = mkStops locs s l ++ [mkStop locs a (s + l.length)] := by
  intro s l
  induction l generalizing s with
  | nil => intro a; simp [mkStops]
  | cons b t ih =>
      intro a
      have harith : s + 1 + t.length = s + (t.length + 1) := by omega
      show mkStop locs b s :: mkStops locs (s + 1) (t ++ [a])
          = mkStop locs b s :: mkStops locs (s + 1) t
            ++ [mkStop locs a (s + (t.length + 1))]
      rw [ih (s + 1) a, harith]
      simp

lemma stopIds_mkFallbackRoute (locs : List Location) (depot_index : ℕ)
    (v : Vehicle) (visited : List ℕ) (d : ℚ) :
    stopIds (mkFallbackRoute locs depot_index v visited d) =
      (locAt locs depot_index).id ::
        (visited.map (fun j => (locAt locs j).id) ++ [(locAt locs depot_index).id]) := by
  simp [stopIds, mkFallbackRoute, mkStop, mkStops_map_location_id]

lemma routeDeliveriesDemand_mkFallbackRoute (locs : List Location)
    (h : (locs.map Location.id).Nodup) (depot_index : ℕ) (v : Vehicle)
    (visited : List ℕ) (d : ℚ) (hval : ∀ j ∈ visited, j < locs.length) :
    routeDeliveriesDemand locs (mkFallbackRoute locs depot_index v visited d)
      = demandSum locs visited := by
  unfold routeDeliveriesDemand
  have hstops : (mkFallbackRoute locs depot_index v visited d).stops.drop 1
      = mkStops locs 1 visited
        ++ [mkStop locs depot_index (visited.length + 1)] := rfl
  rw [hstops, List.dropLast_concat, mkStops_map_demand locs h 1 visited hval]
  rfl

lemma mem_stopIds_mkFallbackRoute (locs : List Location)
    (h : (locs.map Location.id).Nodup) {depot_index i : ℕ}
    (hd : depot_index < locs.length) (hi : i < locs.length)
    (hne : i ≠ depot_index) (v : Vehicle) (visited : List ℕ) (d : ℚ)
    (hval : ∀ j ∈ visited, j < locs.length) :
    ((locAt locs i).id ∈ stopIds (mkFallbackRoute locs depot_index v visited d))
      ↔ i ∈ visited := by
  rw [stopIds_mkFallbackRoute]
  simp only [List.mem_cons, List.mem_append, List.mem_singleton, List.mem_map,
    List.not_mem_nil]
  constructor
  · rintro (heq | ⟨j, hj, hjeq⟩ | heq | hF)
    · exact absurd (locAt_id_inj locs h hi hd heq) hne
    · rwa [← locAt_id_inj locs h (hval j hj) hi hjeq]
    · exact absurd (locAt_id_inj locs h hi hd heq) hne
    · exact absurd hF (by simp)
  · intro hmem
    exact Or.inr (Or.inl ⟨i, hmem, rfl⟩)

/-! ### Vehicle-loop invariants -/

lemma fallbackLoop_capacity (dist : Location → Location → ℚ)
    (locs : List Location) (depot_index : ℕ)
    (h : (locs.map Location.id).Nodup) :
    ∀ (vehicles : List Vehicle) (unvisited : List ℕ),
      (∀ j ∈ unvisited, j < locs.length) →
      ∀ r ∈ (fallbackLoop dist locs depot_index vehicles unvisited).1,
        ∃ v ∈ vehicles, r.vehicle_id = v.id ∧
          routeDeliveriesDemand locs r ≤ v.capacity := by
  intro vehicles
  induction vehicles with
  | nil => intro unvisited hval r hr; simp [fallbackLoop] at hr
  | cons v rest ih =>
      intro unvisited hval r hr
      simp only [fallbackLoop] at hr
      by_cases hemp : unvisited.isEmpty = true
      · rw [if_pos hemp] at hr
        simp at hr
      · rw [if_neg hemp] at hr
        have hperm := vehicleRoute_perm dist locs depot_index v unvisited
        have hval1 : ∀ j ∈ (vehicleRoute dist locs depot_index v unvisited).1,
            j < locs.length := by
          intro j hj
          exact hval j (hperm.mem_iff.mpr (List.mem_append_left _ hj))
        have hval2 : ∀ j ∈ (vehicleRoute dist locs depot_index v unvisited).2.2,
            j < locs.length := by
          intro j hj
          exact hval j (hperm.mem_iff.mpr (List.mem_append_right _ hj))
        by_cases hvis : (vehicleRoute dist locs depot_index v unvisited).1.isEmpty = true
        · rw [if_pos hvis] at hr
          obtain ⟨w, hw, hid, hcap⟩ := ih _ hval2 r hr
          exact ⟨w, List.mem_cons_of_mem v hw, hid, hcap⟩
        · rw [if_neg hvis] at hr
          dsimp only at hr
          rcases List.mem_cons.mp hr with hhead | htail
          · refine ⟨v, List.mem_cons_self v rest, by rw [hhead]; rfl, ?_⟩
            rcases vehicleRoute_capacity dist locs depot_index v unvisited
              with hnil | hbound
            · exact absurd (by rw [hnil]; rfl) hvis
            · rw [hhead,
                routeDeliveriesDemand_mkFallbackRoute locs h depot_index v _ _ hval1]
              exact hbound
          · obtain ⟨w, hw, hid, hcap⟩ := ih _ hval2 r htail
            exact ⟨w, List.mem_cons_of_mem v hw, hid, hcap⟩

lemma fallbackLoop_rest_subset (dist : Location → Location → ℚ)
    (locs : List Location) (depot_index : ℕ) :
    ∀ (vehicles : List Vehicle) (unvisited : List ℕ),
      ∀ j ∈ (fallbackLoop dist locs depot_index vehicles unvisited).2.2,
        j ∈ unvisited := by
  intro vehicles
  induction vehicles with
  | nil => intro unvisited j hj; simpa [fallbackLoop] using hj
  | cons v rest ih =>
      intro unvisited j hj
      simp only [fallbackLoop] at hj
      by_cases hemp : unvisited.isEmpty = true
      · rw [if_pos hemp] at hj
        exact hj
      · rw [if_neg hemp] at hj
        have hperm := vehicleRoute_perm dist locs depot_index v unvisited
        by_cases hvis : (vehicleRoute dist locs depot_index v unvisited).1.isEmpty = true
        · rw [if_pos hvis] at hj
          exact hperm.mem_iff.mpr (List.mem_append_right _ (ih _ j hj))
        · rw [if_neg hvis] at hj
          dsimp only at hj
          exact hperm.mem_iff.mpr (List.mem_append_right _ (ih _ j hj))

lemma fallbackLoop_count (dist : Location → Location → ℚ)
    (locs : List Location) (depot_index : ℕ)
    (h : (locs.map Location.id).Nodup) (hd : depot_index < locs.length)
    {i : ℕ} (hi : i < locs.length) (hne : i ≠ depot_index) :
    ∀ (vehicles : List Vehicle) (unvisited : List ℕ),
      unvisited.Nodup → (∀ j ∈ unvisited, j < locs.length) →
      ((fallbackLoop dist locs depot_index vehicles unvisited).1.countP
          (fun r => decide ((locAt locs i).id ∈ stopIds r)))
        + (if i ∈ (fallbackLoop dist locs depot_index vehicles unvisited).2.2
            then 1 else 0)
      = (if i ∈ unvisited then 1 else 0) := by
  intro vehicles
  induction vehicles with
  | nil => intro unvisited hnd hval; simp [fallbackLoop]
  | cons v rest ih =>
      intro unvisited hnd hval
      simp only [fallbackLoop]
      by_cases hemp : unvisited.isEmpty = true
      · rw [if_pos hemp]
        simp
      · rw [if_neg hemp]
        have hperm := vehicleRoute_perm dist locs depot_index v unvisited
        have hnd' : ((vehicleRoute dist locs depot_index v unvisited).1 ++
            (vehicleRoute dist locs depot_index v unvisited).2.2).Nodup :=
          hperm.nodup_iff.mp hnd
        have hnd2 : (vehicleRoute dist locs depot_index v unvisited).2.2.Nodup :=
          hnd'.of_append_right
        have hval1 : ∀ j ∈ (vehicleRoute dist locs depot_index v unvisited).1,
            j < locs.length := by
          intro j hj
          exact hval j (hperm.mem_iff.mpr (List.mem_append_left _ hj))
        have hval2 : ∀ j ∈ (vehicleRoute dist locs depot_index v unvisited).2.2,
            j < locs.length := by
          intro j hj
          exact hval j (hperm.mem_iff.mpr (List.mem_append_right _ hj))
        have hih := ih (vehicleRoute dist locs depot_index v unvisited).2.2 hnd2 hval2
        by_cases hvis : (vehicleRoute dist locs depot_index v unvisited).1.isEmpty = true
        · rw [if_pos hvis]
          rw [hih]
          have hmm : i ∈ unvisited ↔ i ∈ (vehicleRoute dist locs depot_index v unvisited).2.2 := by
            rw [hperm.mem_iff]
            rw [List.isEmpty_iff.mp hvis]
            simp
          by_cases him : i ∈ (vehicleRoute dist locs depot_index v unvisited).2.2
          · rw [if_pos him, if_pos (hmm.mpr him)]
          · rw [if_neg him, if_neg (fun hc => him (hmm.mp hc))]
        · rw [if_neg hvis]
          dsimp only
          rw [List.countP_cons]
          have hmemiff : ((locAt locs i).id ∈
              stopIds (mkFallbackRoute locs depot_index v
                (vehicleRoute dist locs depot_index v unvisited).1
                (vehicleRoute dist locs depot_index v unvisited).2.1)) ↔
              i ∈ (vehicleRoute dist locs depot_index v unvisited).1 :=
            mem_stopIds_mkFallbackRoute locs h hd hi hne _ _ _ hval1
          have hdisj := (List.nodup_append.mp hnd').2.2
          by_cases him : i ∈ (vehicleRoute dist locs depot_index v unvisited).1
          · have hnotin2 : i ∉ (vehicleRoute dist locs depot_index v unvisited).2.2 :=
              fun hc => hdisj him hc
            have hP : (decide ((locAt locs i).id ∈
                stopIds (mkFallbackRoute locs depot_index v
                  (vehicleRoute dist locs depot_index v unvisited).1
                  (vehicleRoute dist locs depot_index v unvisited).2.1))) = true := by
              simp [hmemiff, him]
            rw [hP]
            simp only [eq_self_iff_true, if_true]
            have hU : i ∈ unvisited :=
              hperm.mem_iff.mpr (List.mem_append_left _ him)
            rw [if_pos hU]
            rw [if_neg hnotin2] at hih
            by_cases him3 : i ∈ (fallbackLoop dist locs depot_index rest
                (vehicleRoute dist locs depot_index v unvisited).2.2).2.2
            · rw [if_pos him3] at hih ⊢
              omega
            · rw [if_neg him3] at hih ⊢
              omega
          · have hP : (decide ((locAt locs i).id ∈
                stopIds (mkFallbackRoute locs depot_index v
                  (vehicleRoute dist locs depot_index v unvisited).1
                  (vehicleRoute dist locs depot_index v unvisited).2.1))) = false := by
              simp [hmemiff, him]
            rw [hP]
            simp only [Bool.false_eq_true, if_false, add_zero]
            have hmm : i ∈ unvisited ↔
                i ∈ (vehicleRoute dist locs depot_index v unvisited).2.2 := by
              rw [hperm.mem_iff, List.mem_append]
              simp [him]
            by_cases him2 : i ∈ (vehicleRoute dist locs depot_index v unvisited).2.2
            · rw [if_pos him2] at hih
              rw [if_pos (hmm.mpr him2)]
              exact hih
            · rw [if_neg him2] at hih
              rw [if_neg (fun hc => him2 (hmm.mp hc))]
              exact hih

/-! ### Exact-path extraction invariants -/

lemma stopIds_mkOrtoolsRoute (locs : List Location) (dmat tmat : List (List ℤ))
    (v : Vehicle) (seq : List ℕ) :
    stopIds (mkOrtoolsRoute locs dmat tmat v seq)
      = seq.map (fun j => (locAt locs j).id) := by
  simp [stopIds, mkOrtoolsRoute, mkStops_map_location_id]

lemma walk_dropLast (depot : ℕ) (mid : List ℕ) :
    (depot :: mid ++ [depot]).dropLast = depot :: mid := by
  rw [show depot :: mid ++ [depot] = (depot :: mid) ++ [depot] by simp]
  exact List.dropLast_concat

lemma routeDeliveriesDemand_mkOrtoolsRoute (locs : List Location)
    (h : (locs.map Location.id).Nodup) (dmat tmat : List (List ℤ))
    (v : Vehicle) (depot : ℕ) (mid : List ℕ)
    (hmid : ∀ j ∈ mid, j < locs.length) :
    routeDeliveriesDemand locs
        (mkOrtoolsRoute locs dmat tmat v (depot :: mid ++ [depot]))
      = demandSum locs mid := by
  unfold routeDeliveriesDemand
  have h1 : (mkOrtoolsRoute locs dmat tmat v (depot :: mid ++ [depot])).stops.drop 1
      = mkStops locs 1 (mid ++ [depot]) := rfl
  rw [h1, mkStops_concat, List.dropLast_concat,
    mkStops_map_demand locs h 1 mid hmid]
  rfl

lemma mem_stopIds_mkOrtoolsRoute (locs : List Location)
    (h : (locs.map Location.id).Nodup) {i : ℕ} (hi : i < locs.length)
    (dmat tmat : List (List ℤ)) (v : Vehicle) (seq : List ℕ)
    (hseq : ∀ j ∈ seq, j < locs.length) :
    ((locAt locs i).id ∈ stopIds (mkOrtoolsRoute locs dmat tmat v seq))
      ↔ i ∈ seq := by
  rw [stopIds_mkOrtoolsRoute]
  simp only [List.mem_map]
  constructor
  · rintro ⟨j, hj, hjeq⟩
    rwa [← locAt_id_inj locs h (hseq j hj) hi hjeq]
  · intro him
    exact ⟨i, him, rfl⟩

lemma extractLoop_capacity (locs : List Location) (dmat tmat : List (List ℤ))
    (h : (locs.map Location.id).Nodup) (depot : ℕ)
    (hdep : 0 ≤ (locAt locs depot).demand) :
    ∀ (pairs : List (Vehicle × List ℕ)),
      (∀ p ∈ pairs, ∃ mid, p.2 = depot :: mid ++ [depot] ∧
        ∀ j ∈ mid, j < locs.length) →
      (∀ p ∈ pairs, demandSum locs p.2.dropLast ≤ p.1.capacity) →
      ∀ r ∈ (extractLoop locs dmat tmat pairs).1,
        ∃ p ∈ pairs, r.vehicle_id = p.1.id ∧
          routeDeliveriesDemand locs r ≤ p.1.capacity := by
  intro pairs
  induction pairs with
  | nil => intro _ _ r hr; simp [extractLoop] at hr
  | cons q rest ih =>
      intro hshape hcap r hr
      obtain ⟨v, seq⟩ := q
      obtain ⟨mid, hseq, hmid⟩ := hshape (v, seq) (List.mem_cons_self _ _)
      have hseq' : seq = depot :: mid ++ [depot] := hseq
      simp only [extractLoop] at hr
      by_cases hkept : 2 < seq.length
      · rw [if_pos hkept] at hr
        dsimp only at hr
        rcases List.mem_cons.mp hr with hhead | htail
        · refine ⟨(v, seq), List.mem_cons_self _ _, by rw [hhead]; rfl, ?_⟩
          have hbound : demandSum locs seq.dropLast ≤ v.capacity :=
            hcap (v, seq) (List.mem_cons_self _ _)
          rw [hseq', walk_dropLast, demandSum_cons] at hbound
          rw [hhead, hseq',
            routeDeliveriesDemand_mkOrtoolsRoute locs h dmat tmat v depot mid hmid]
          show demandSum locs mid ≤ v.capacity
          omega
        · obtain ⟨p, hp, hid, hle⟩ := ih
            (fun p hp => hshape p (List.mem_cons_of_mem _ hp))
            (fun p hp => hcap p (List.mem_cons_of_mem _ hp)) r htail
          exact ⟨p, List.mem_cons_of_mem _ hp, hid, hle⟩
      · rw [if_neg hkept] at hr
        obtain ⟨p, hp, hid, hle⟩ := ih
          (fun p hp => hshape p (List.mem_cons_of_mem _ hp))
          (fun p hp => hcap p (List.mem_cons_of_mem _ hp)) r hr
        exact ⟨p, List.mem_cons_of_mem _ hp, hid, hle⟩

lemma extractLoop_count (locs : List Location) (dmat tmat : List (List ℤ))
    (h : (locs.map Location.id).Nodup) {depot i : ℕ}
    (hd : depot < locs.length) (hi : i < locs.length) (hne : i ≠ depot) :
    ∀ (pairs : List (Vehicle × List ℕ)),
      (∀ p ∈ pairs, ∃ mid, p.2 = depot :: mid ++ [depot] ∧
        ∀ j ∈ mid, j < locs.length) →
      (extractLoop locs dmat tmat pairs).1.countP
          (fun r => decide ((locAt locs i).id ∈ stopIds r))
        = pairs.countP (fun p => decide (i ∈ p.2)) := by
  intro pairs
  induction pairs with
  | nil => intro _; rfl
  | cons q rest ih =>
      intro hshape
      obtain ⟨v, seq⟩ := q
      obtain ⟨mid, hseq, hmid⟩ := hshape (v, seq) (List.mem_cons_self _ _)
      have hseq' : seq = depot :: mid ++ [depot] := hseq
      have hseqval : ∀ j ∈ seq, j < locs.length := by
        intro j hj
        rw [hseq'] at hj
        rcases List.mem_cons.mp hj with hjd | hjr
        · rwa [hjd]
        · rcases List.mem_append.mp hjr with hjm | hjl
          · exact hmid j hjm
          · rw [List.mem_singleton.mp hjl]; exact hd
      have ihr := ih (fun p hp => hshape p (List.mem_cons_of_mem _ hp))
      simp only [extractLoop]
      by_cases hkept : 2 < seq.length
      · rw [if_pos hkept]
        dsimp only
        rw [List.countP_cons, List.countP_cons, ihr]
        have hiff : (decide ((locAt locs i).id ∈
            stopIds (mkOrtoolsRoute locs dmat tmat v seq)))
            = (decide (i ∈ seq)) := by
          simp [mem_stopIds_mkOrtoolsRoute locs h hi dmat tmat v seq hseqval]
        rw [hiff]
      · rw [if_neg hkept]
        rw [List.countP_cons, ihr]
        have hmidnil : mid = [] := by
          rw [hseq'] at hkept
          simp only [List.length_cons, List.length_append, List.length_singleton]
            at hkept
          have : mid.length = 0 := by omega
          exact List.length_eq_zero.mp this
        have hnotin : i ∉ seq := by
          rw [hseq', hmidnil]
          simp [hne]
        rw [if_neg (by simpa using hnotin)]
        omega

lemma countP_zip_snd (i : ℕ) :
    ∀ (vs : List Vehicle) (sol : List (List ℕ)), vs.length = sol.length →
      (vs.zip sol).countP (fun p => decide (i ∈ p.2))
        = sol.countP (fun seq => decide (i ∈ seq)) := by
  intro vs
  induction vs with
  | nil =>
      intro sol hlen
      cases sol with
      | nil => rfl
      | cons s ss => simp at hlen
  | cons v vs ih =>
      intro sol hlen
      cases sol with
      | nil => simp at hlen
      | cons s ss =>
          simp only [List.zip_cons_cons, List.countP_cons]
          rw [ih ss (by simpa using hlen)]

/-! ### Result-field projections -/

lemma fallback_optimize_routes (dist : Location → Location → ℚ)
    (locs : List Location) (vehicles : List Vehicle) (depot_index : ℕ) (t : ℚ) :
    (fallback_optimize dist locs vehicles depot_index t).routes =
      (fallbackLoop dist locs depot_index vehicles
        ((List.range locs.length).erase depot_index)).1 := rfl

lemma fallback_optimize_unassigned (dist : Location → Location → ℚ)
    (locs : List Location) (vehicles : List Vehicle) (depot_index : ℕ) (t : ℚ) :
    (fallback_optimize dist locs vehicles depot_index t).unassigned_locations =
      (fallbackLoop dist locs depot_index vehicles
        ((List.range locs.length).erase depot_index)).2.2.map
          (fun i => (locAt locs i).id) := rfl

lemma ortoolsExtract_routes (locs : List Location) (vehicles : List Vehicle)
    (dmat tmat : List (List ℤ)) (sol : List (List ℕ)) (status : ℕ) (t : ℚ) :
    (ortoolsExtract locs vehicles dmat tmat sol status t).routes =
      (extractLoop locs dmat tmat (vehicles.zip sol)).1 := rfl

lemma ortoolsExtract_unassigned (locs : List Location) (vehicles : List Vehicle)
    (dmat tmat : List (List ℤ)) (sol : List (List ℕ)) (status : ℕ) (t : ℚ) :
    (ortoolsExtract locs vehicles dmat tmat sol status t).unassigned_locations
      = [] := rfl

lemma ortoolsExtract_total_time (locs : List Location) (vehicles : List Vehicle)
    (dmat tmat : List (List ℤ)) (sol : List (List ℕ)) (status : ℕ) (t : ℚ) :
    (ortoolsExtract locs vehicles dmat tmat sol status t).total_time_minutes =
      (extractLoop locs dmat tmat (vehicles.zip sol)).2.2.1 := rfl

lemma extractLoop_time (locs : List Location) (dmat tmat : List (List ℤ)) :
    ∀ (pairs : List (Vehicle × List ℕ)),
      (extractLoop locs dmat tmat pairs).2.2.1 =
        ((extractLoop locs dmat tmat pairs).1.map RouteRecord.time_minutes).sum := by
  intro pairs
  induction pairs with
  | nil => rfl
  | cons q rest ih =>
      obtain ⟨v, seq⟩ := q
      simp only [extractLoop]
      by_cases hkept : 2 < seq.length
      · rw [if_pos hkept]
        dsimp only
        rw [List.map_cons, List.sum_cons, ← ih]
        rfl
      · rw [if_neg hkept]
        exact ih

/-! ### Conservation, per solve path -/

lemma fallback_conserved (dist : Location → Location → ℚ)
    (locs : List Location) (vehicles : List Vehicle) (depot_index : ℕ) (t : ℚ)
    (hn : (locs.map Location.id).Nodup) (hd : depot_index < locs.length)
    {i : ℕ} (hi : i < locs.length) (hne : i ≠ depot_index) :
    ConservedId (fallback_optimize dist locs vehicles depot_index t)
      ((locAt locs i).id) := by
  have hnd0 : ((List.range locs.length).erase depot_index).Nodup :=
    (List.nodup_range _).erase _
  have hval0 : ∀ j ∈ (List.range locs.length).erase depot_index,
      j < locs.length :=
    fun j hj => List.mem_range.mp (List.mem_of_mem_erase hj)
  have hmem0 : i ∈ (List.range locs.length).erase depot_index :=
    (List.Nodup.mem_erase_iff (List.nodup_range _)).mpr
      ⟨hne, List.mem_range.mpr hi⟩
  have hcount := fallbackLoop_count dist locs depot_index hn hd hi hne
    vehicles _ hnd0 hval0
  rw [if_pos hmem0] at hcount
  have hsub := fallbackLoop_rest_subset dist locs depot_index vehicles
    ((List.range locs.length).erase depot_index)
  have hunass : ((locAt locs i).id ∈
      (fallback_optimize dist locs vehicles depot_index t).unassigned_locations)
      ↔ i ∈ (fallbackLoop dist locs depot_index vehicles
          ((List.range locs.length).erase depot_index)).2.2 := by
    rw [fallback_optimize_unassigned]
    simp only [List.mem_map]
    constructor
    · rintro ⟨j, hj, hjeq⟩
      have hjval : j < locs.length := hval0 j (hsub j hj)
      rwa [← locAt_id_inj locs hn hjval hi hjeq]
    · intro him
      exact ⟨i, him, rfl⟩
  have hrc : routesContaining
        (fallback_optimize dist locs vehicles depot_index t) ((locAt locs i).id)
      = (fallbackLoop dist locs depot_index vehicles
          ((List.range locs.length).erase depot_index)).1.countP
            (fun r => decide ((locAt locs i).id ∈ stopIds r)) := by
    rw [routesContaining, fallback_optimize_routes]
  unfold ConservedId
  by_cases hrest : i ∈ (fallbackLoop dist locs depot_index vehicles
      ((List.range locs.length).erase depot_index)).2.2
  · right
    rw [if_pos hrest] at hcount
    exact ⟨by rw [hrc]; omega, hunass.mpr hrest⟩
  · left
    rw [if_neg hrest] at hcount
    exact ⟨by rw [hrc]; omega, fun hc => hrest (hunass.mp hc)⟩

lemma ortools_conserved (locs : List Location) (vehicles : List Vehicle)
    (dmat tmat : List (List ℤ)) (sol : List (List ℕ)) (status : ℕ) (t : ℚ)
    (depot : ℕ) (hn : (locs.map Location.id).Nodup)
    (hd : depot < locs.length) (hlen : vehicles.length = sol.length)
    (hvalid : ∀ seq ∈ sol, ValidWalk locs.length depot seq)
    (honce : SolVisitsAllOnce locs.length depot sol)
    {i : ℕ} (hi : i < locs.length) (hne : i ≠ depot) :
    ConservedId (ortoolsExtract locs vehicles dmat tmat sol status t)
      ((locAt locs i).id) := by
  left
  constructor
  · have hshape : ∀ p ∈ vehicles.zip sol, ∃ mid,
        p.2 = depot :: mid ++ [depot] ∧ ∀ j ∈ mid, j < locs.length := by
      intro p hp
      obtain ⟨mid, hm, hmv⟩ := hvalid p.2 (List.of_mem_zip hp).2
      exact ⟨mid, hm, fun j hj => (hmv j hj).1⟩
    have h1 := extractLoop_count locs dmat tmat hn hd hi hne
      (vehicles.zip sol) hshape
    have h2 := countP_zip_snd i vehicles sol hlen
    rw [routesContaining, ortoolsExtract_routes, h1, h2]
    exact honce i hi hne
  · rw [ortoolsExtract_unassigned]
    simp

/-! ### Claim theorems: capacity, conservation, totals -/

/-- **C1** (confirmed).  For every solve with distinct location and vehicle
ids: in the fallback path a location is appended only while the used
capacity plus its demand fits, so no produced route's cumulative delivery
demand exceeds its vehicle's capacity; and in the exact path, any solution
honouring the registered `Capacity` dimension yields extracted routes whose
cumulative delivery demand is bounded by the vehicle's capacity (given the
depot's own demand is non-negative). -/
theorem capacity_respected :
    (∀ (dist : Location → Location → ℚ) (locs : List Location)
        (vehicles : List Vehicle) (depot_index : ℕ) (t : ℚ),
      (locs.map Location.id).Nodup → (vehicles.map Vehicle.id).Nodup →
      ∀ v ∈ vehicles,
        ∀ r ∈ (fallback_optimize dist locs vehicles depot_index t).routes,
          r.vehicle_id = v.id → routeDeliveriesDemand locs r ≤ v.capacity) ∧
    (∀ (locs : List Location) (vehicles : List Vehicle)
        (dmat tmat : List (List ℤ)) (sol : List (List ℕ)) (status : ℕ)
        (t : ℚ) (depot : ℕ),
      (locs.map Location.id).Nodup → (vehicles.map Vehicle.id).Nodup →
      0 ≤ (locAt locs depot).demand →
      (∀ seq ∈ sol, ValidWalk locs.length depot seq) →
      CapacityDimOk locs vehicles sol →
      ∀ v ∈ vehicles,
        ∀ r ∈ (ortoolsExtract locs vehicles dmat tmat sol status t).routes,
          r.vehicle_id = v.id → routeDeliveriesDemand locs r ≤ v.capacity) := by
  constructor
  · intro dist locs vehicles depot_index t hn hnv v hv r hr hid
    have hval0 : ∀ j ∈ (List.range locs.length).erase depot_index,
        j < locs.length :=
      fun j hj => List.mem_range.mp (List.mem_of_mem_erase hj)
    rw [fallback_optimize_routes] at hr
    obtain ⟨w, hw, hwid, hcap⟩ :=
      fallbackLoop_capacity dist locs depot_index hn vehicles _ hval0 r hr
    have hwv : w = v :=
      List.inj_on_of_nodup_map hnv hw hv (by rw [← hwid]; exact hid)
    rwa [← hwv]
  · intro locs vehicles dmat tmat sol status t depot hn hnv hdep hvalid hcap
      v hv r hr hid
    rw [ortoolsExtract_routes] at hr
    have hshape : ∀ p ∈ vehicles.zip sol, ∃ mid,
        p.2 = depot :: mid ++ [depot] ∧ ∀ j ∈ mid, j < locs.length := by
      intro p hp
      obtain ⟨mid, hm, hmv⟩ := hvalid p.2 (List.of_mem_zip hp).2
      exact ⟨mid, hm, fun j hj => (hmv j hj).1⟩
    obtain ⟨p, hp, hpid, hple⟩ :=
      extractLoop_capacity locs dmat tmat hn depot hdep _ hshape hcap r hr
    have hv1 : p.1 ∈ vehicles := (List.of_mem_zip hp).1
    have hpv : p.1 = v :=
      List.inj_on_of_nodup_map hnv hv1 hv (by rw [← hpid]; exact hid)
    rwa [← hpv]

/-- **C1** witness. -/
theorem capacity_respected_witness :
    (∀ v ∈ [exVan1, exVan2],
      ∀ r ∈ (fallback_optimize taxicab [exDepot, exLocA, exLocB]
          [exVan1, exVan2] 0 0).routes,
        r.vehicle_id = v.id →
          routeDeliveriesDemand [exDepot, exLocA, exLocB] r ≤ v.capacity) ∧
    (∀ v ∈ [exVan1],
      ∀ r ∈ (ortoolsExtract [exDepot, exLocA] [exVan1] exDmat exTmat
          exSol 1 0).routes,
        r.vehicle_id = v.id →
          routeDeliveriesDemand [exDepot, exLocA] r ≤ v.capacity) :=
  ⟨capacity_respected.1 taxicab [exDepot, exLocA, exLocB] [exVan1, exVan2]
      0 0 (by decide) (by decide),
   capacity_respected.2 [exDepot, exLocA] [exVan1] exDmat exTmat exSol 1 0 0
      (by decide) (by decide) (by decide)
      (by
        intro seq hseq
        simp only [exSol, List.mem_singleton] at hseq
        rw [hseq]
        exact ⟨[1], rfl, by decide⟩)
      (by decide)⟩

/-- **C2** (corrected/amended theorem).  On a solve with distinct location
ids and a valid depot index, every *non-depot* location id appears in
exactly one route's stop list or in `unassigned_locations`, never both and
never neither — in the fallback path unconditionally, and in the exact path
for any well-formed solver solution that visits every non-depot node
exactly once. -/
theorem conservation_non_depot :
    (∀ (dist : Location → Location → ℚ) (locs : List Location)
        (vehicles : List Vehicle) (depot_index : ℕ) (t : ℚ),
      (locs.map Location.id).Nodup → depot_index < locs.length →
      ∀ i, i < locs.length → i ≠ depot_index →
        ConservedId (fallback_optimize dist locs vehicles depot_index t)
          ((locAt locs i).id)) ∧
    (∀ (locs : List Location) (vehicles : List Vehicle)
        (dmat tmat : List (List ℤ)) (sol : List (List ℕ)) (status : ℕ)
        (t : ℚ) (depot : ℕ),
      (locs.map Location.id).Nodup → depot < locs.length →
      vehicles.length = sol.length →
      (∀ seq ∈ sol, ValidWalk locs.length depot seq) →
      SolVisitsAllOnce locs.length depot sol →
      ∀ i, i < locs.length → i ≠ depot →
        ConservedId (ortoolsExtract locs vehicles dmat tmat sol status t)
          ((locAt locs i).id)) := by
  constructor
  · intro dist locs vehicles depot_index t hn hd i hi hne
    exact fallback_conserved dist locs vehicles depot_index t hn hd hi hne
  · intro locs vehicles dmat tmat sol status t depot hn hd hlen hvalid honce
      i hi hne
    exact ortools_conserved locs vehicles dmat tmat sol status t depot hn hd
      hlen hvalid honce hi hne

/-- **C2** (counterexample to the claim as stated): the depot's id appears
in *every* non-trivial route's stop list, so with two vehicles each taking
one delivery the depot id is in two routes at once, violating
"exactly one route or unassigned" for that id. -/
theorem conservation_fails_for_depot :
    (locAt [exDepot, exLocA, exLocB] 0).id = "d" ∧
    routesContaining (fallback_optimize taxicab [exDepot, exLocA, exLocB]
      [exVan1, exVan2] 0 0) "d" = 2 ∧
    ¬ ConservedId (fallback_optimize taxicab [exDepot, exLocA, exLocB]
      [exVan1, exVan2] 0 0) "d" :=
  ⟨rfl, by decide, by decide⟩

/-- **C2** witness. -/
theorem conservation_non_depot_witness :
    ConservedId (fallback_optimize taxicab [exDepot, exLocA, exLocB]
      [exVan1, exVan2] 0 0) ((locAt [exDepot, exLocA, exLocB] 1).id) ∧
    ConservedId (ortoolsExtract [exDepot, exLocA] [exVan1] exDmat exTmat
      exSol 1 0) ((locAt [exDepot, exLocA] 1).id) :=
  ⟨conservation_non_depot.1 taxicab [exDepot, exLocA, exLocB]
      [exVan1, exVan2] 0 0 (by decide) (by decide) 1 (by decide) (by decide),
   conservation_non_depot.2 [exDepot, exLocA] [exVan1] exDmat exTmat exSol
      1 0 0 (by decide) (by decide) rfl
      (by
        intro seq hseq
        simp only [exSol, List.mem_singleton] at hseq
        rw [hseq]
        exact ⟨[1], rfl, by decide⟩)
      (by decide) 1 (by decide) (by decide)⟩

/-- **C6** (amended theorem).  Of the three totals, exactly these are sums
of the corresponding per-route fields: `total_cost` in the fallback path
(the code literally sums the rounded per-route costs) and
`total_time_minutes` in the exact path (integer route times add exactly).
The remaining totals accumulate *unrounded* per-route quantities, and the
fallback's `total_time_minutes` truncates the total rather than summing the
truncated per-route times. -/
theorem totals_sum_relations :
    (∀ (dist : Location → Location → ℚ) (locs : List Location)
        (vehicles : List Vehicle) (depot_index : ℕ) (t : ℚ),
      (fallback_optimize dist locs vehicles depot_index t).total_cost =
        ((fallback_optimize dist locs vehicles depot_index t).routes.map
          RouteRecord.cost).sum) ∧
    (∀ (locs : List Location) (vehicles : List Vehicle)
        (dmat tmat : List (List ℤ)) (sol : List (List ℕ)) (status : ℕ) (t : ℚ),
      (ortoolsExtract locs vehicles dmat tmat sol status t).total_time_minutes =
        ((ortoolsExtract locs vehicles dmat tmat sol status t).routes.map
          RouteRecord.time_minutes).sum) := by
  constructor
  · intro dist locs vehicles depot_index t
    rfl
  · intro locs vehicles dmat tmat sol status t
    rw [ortoolsExtract_total_time, ortoolsExtract_routes]
    exact extractLoop_time locs dmat tmat (vehicles.zip sol)

lemma pyInt_eq_floor (x : ℚ) (h : 0 ≤ x) : pyInt x = ⌊x⌋ := by
  unfold pyInt
  rw [if_pos h, Rat.floor_def', ← Rat.floor_def]

lemma pyInt_val {x : ℚ} {z : ℤ} (h0 : 0 ≤ x) (h1 : (z : ℚ) ≤ x)
    (h2 : x < z + 1) : pyInt x = z := by
  rw [pyInt_eq_floor x h0]
  exact Int.floor_eq_iff.mpr ⟨h1, by exact_mod_cast h2⟩

lemma rat_floor_eq {x : ℚ} {z : ℤ} (h1 : (z : ℚ) ≤ x) (h2 : x < z + 1) :
    x.floor = z := by
  rw [Rat.floor_def', ← Rat.floor_def]
  exact Int.floor_eq_iff.mpr ⟨h1, by exact_mod_cast h2⟩

/-- On the equator the haversine formula collapses exactly: both latitudes
are 0, so `a = sin²(λ/2)` and `2·arcsin(√a) = λ` for a longitude
difference of at most 180 degrees. -/
lemma hav_equator (l : ℝ) (h0 : 0 ≤ l) (h180 : l ≤ 180) :
    haversine_distance_ro 0 0 0 l = 6371 * (l * (Real.pi / 180)) := by
  have hpi := Real.pi_pos
  have hθ0 : 0 ≤ l * (Real.pi / 180) / 2 := by positivity
  have hθhalf : l * (Real.pi / 180) / 2 ≤ Real.pi / 2 := by nlinarith
  have hθpi : l * (Real.pi / 180) / 2 ≤ Real.pi := by nlinarith
  simp only [haversine_distance_ro, haversineA, radiansR]
  rw [show (0:ℝ) * (Real.pi / 180) = 0 by ring]
  rw [show ((0:ℝ) - 0) / 2 = 0 by ring, Real.sin_zero, Real.cos_zero]
  rw [show (l * (Real.pi / 180) - 0) / 2 = l * (Real.pi / 180) / 2 by ring]
  rw [show ((0:ℝ))^2 + 1 * 1 * Real.sin (l * (Real.pi / 180) / 2) ^ 2
      = Real.sin (l * (Real.pi / 180) / 2) ^ 2 by ring]
  rw [Real.sqrt_sq (Real.sin_nonneg_of_nonneg_of_le_pi hθ0 hθpi)]
  rw [Real.arcsin_sin (by linarith) hθhalf]
  rw [show ((EARTH_RADIUS_KM : ℚ) : ℝ) = 6371 by norm_num [EARTH_RADIUS_KM]]
  ring

/-- The distance matrix the code computes for the depot and `eqLocA`:
each off-diagonal entry is `int(6371π/45) = 444` meters. -/
lemma dmat_equator :
    compute_distance_matrix [exDepot, eqLocA] = [[0, 444], [444, 0]] := by
  have hval : haversine_distance_ro 0 0 0 ((1:ℝ)/250) * 1000
      = 6371 * Real.pi / 45 := by
    rw [hav_equator (1/250) (by norm_num) (by norm_num)]
    ring
  have hpy : pyIntR (6371 * Real.pi / 45) = 444 := by
    unfold pyIntR
    rw [if_pos (by positivity)]
    rw [Int.floor_eq_iff]
    constructor
    · push_cast
      nlinarith [Real.pi_gt_d6]
    · push_cast
      nlinarith [Real.pi_lt_d6]
  unfold compute_distance_matrix
  simp only [List.length_cons, List.length_nil, List.range_succ,
    List.range_zero, List.nil_append, List.cons_append, List.map_cons,
    List.map_nil, locAt, List.getD, List.getElem?_cons_zero,
    List.getElem?_cons_succ, Option.getD_some]
  norm_num [exDepot, eqLocA]
  refine ⟨?_, ?_⟩
  · rw [hval, hpy]
  · rw [haversine_ro_symm, hval, hpy]

/-- `total_distance_km` of the exact-path result is the accumulated
unrounded per-route distance (lines 427, 434). -/
lemma ortoolsExtract_total_distance (locs : List Location)
    (vehicles : List Vehicle) (dmat tmat : List (List ℤ))
    (sol : List (List ℕ)) (status : ℕ) (t : ℚ) :
    (ortoolsExtract locs vehicles dmat tmat sol status t).total_distance_km =
      (extractLoop locs dmat tmat (vehicles.zip sol)).2.1 := rfl

/-- **C6** (counterexample to the claim as stated, under the program's own
haversine metric): for the depot and a delivery 1/250° of longitude away on
the equator, the code's distance matrix entry is `int(6371π/45) = 444`
meters, so the walk depot → delivery → depot is 888 m = 0.888 km.  The
route's reported `distance_km` is `round(0.888, 2) = 0.89`, but
`total_distance_km` accumulates the unrounded 0.888, so the total is not
the sum of the per-route values. -/
theorem total_distance_not_sum_of_rounded :
    (ortoolsExtract [exDepot, eqLocA] [exVan1]
        (compute_distance_matrix [exDepot, eqLocA])
        (compute_time_matrix (compute_distance_matrix [exDepot, eqLocA])
          [exDepot, eqLocA])
        [[0, 1, 0]] 1 0).total_distance_km = 111/125 ∧
    ((ortoolsExtract [exDepot, eqLocA] [exVan1]
        (compute_distance_matrix [exDepot, eqLocA])
        (compute_time_matrix (compute_distance_matrix [exDepot, eqLocA])
          [exDepot, eqLocA])
        [[0, 1, 0]] 1 0).routes.map RouteRecord.distance_km).sum = 89/100 ∧
    (111/125 : ℚ) ≠ 89/100 := by
  rw [dmat_equator]
  have hwalk : walkSum [[0, 444], [444, 0]] [0, 1, 0] = 888 := by decide
  have hround : round2 ((111:ℚ)/125) = 89/100 := by
    have hf : (((111:ℚ)/125) * 100).floor = 88 :=
      rat_floor_eq (by norm_num) (by norm_num)
    simp only [round2, pyRoundInt, hf]
    norm_num
  refine ⟨?_, ?_, by norm_num⟩
  · rw [ortoolsExtract_total_distance]
    norm_num [extractLoop, hwalk]
  · rw [ortoolsExtract_routes]
    norm_num [extractLoop, mkOrtoolsRoute, hwalk, hround]

end LogiMetrics
